import Mathlib

/-!
Verification model of the bento package manager (github.com/godalming123/bento).

Go strings are modeled as `List Char` where byte-level operations matter
(path cleaning, prefix trimming, string interpolation), and as Lean `String`
elsewhere.  Go maps are modeled as association lists.  External effects
(filesystem reads, TOML decoding, HTTP fetches, archive extraction, the
process architecture label, and slice shuffling) are passed in as explicit
function parameters of the model, since they are not code of this repository.
-/

namespace Bento

/-! ### Go `path` package primitives (lexical path cleaning)

`goPathClean` models Go's `path.Clean`: split on `/`, drop empty and `.`
segments, resolve `..` against a stack (a `..` with an empty stack is dropped
when the path is rooted and kept when it is not), then re-render.  This matches
the Go implementation's documented postconditions: the result has no empty or
`.` segments and `..` segments only as a leading run of a non-rooted path. -/

/-- Split a character list on `/`, keeping empty segments
(like Go's `strings.Split(s, "/")`). -/
def splitSlash : List Char → List (List Char)
  | [] => [[]]
  | c :: cs =>
    if c = '/' then [] :: splitSlash cs
    else
      match splitSlash cs with
      | s :: rest => (c :: s) :: rest
      | [] => [[c]]

/-- The `..` path segment. -/
def dotdot : List Char := ['.', '.']

/-- Segments of a path after dropping empty and `.` segments. -/
def cleanSegs (p : List Char) : List (List Char) :=
  (splitSlash p).filter (fun s => !(s == [] || s == ['.']))

/-- Process segments against a stack (held in reverse), resolving `..`.
Mirrors the `..` handling of Go's `path.Clean`: `..` pops a preceding normal
segment, is dropped at the root of a rooted path, and accumulates at the
front of a non-rooted path. -/
def applySegs (rooted : Bool) : List (List Char) → List (List Char) → List (List Char)
  | stack, [] => stack.reverse
  | stack, seg :: segs =>
    if seg = dotdot then
      match stack with
      | [] => applySegs rooted (if rooted then [] else [dotdot]) segs
      | top :: rest =>
        if top = dotdot then applySegs rooted (dotdot :: top :: rest) segs
        else applySegs rooted rest segs
    else applySegs rooted (seg :: stack) segs

/-- Join segments with `/`. -/
def joinSegs (segs : List (List Char)) : List Char :=
  List.intercalate ['/'] segs

/-- Go's `path.Clean` (lexical canonicalization, no symlink resolution). -/
def goPathClean (p : List Char) : List Char :=
  let rooted := p.head? = some '/'
  let out := joinSegs (applySegs rooted [] (cleanSegs p))
  if rooted then '/' :: out
  else if out = [] then ['.'] else out

/-- `utils.TrimPrefix` (src/unnamed/part_001 lines 140-145): Go
`strings.HasPrefix` test, and on success the suffix `str[len(pre):]`. -/
def TrimPrefix (str pre : List Char) : List Char × Bool :=
  if pre.isPrefixOf str then (str.drop pre.length, true) else (str, false)

/-- Go's `path.Join` restricted to two arguments, as used by the sources:
empty elements are skipped, the rest are joined with `/` and cleaned;
all-empty input gives the empty string. -/
def goPathJoin (a b : List Char) : List Char :=
  if a = [] && b = [] then []
  else if a = [] then goPathClean b
  else goPathClean (a ++ '/' :: b)

/-- Go's `path.Dir`: everything up to and including the final `/`, cleaned;
a path without `/` gives `.`. -/
def goPathDir (p : List Char) : List Char :=
  goPathClean ((p.reverse.dropWhile (fun c => !(c == '/'))).reverse)

/-- `archivePathToSystemPath` (src/utils/compression.go lines 15-23): clean the
archive-internal path, trim the root prefix (plain string prefix via
`TrimPrefix`), and join the remainder onto the destination. Returns
`("", false)` when the cleaned path does not start with `rootPath`. -/
def archivePathToSystemPath (pathRelativeToArchiveRoot rootPath absoluteDestination :
    List Char) : List Char × Bool :=
  let r := TrimPrefix (goPathClean pathRelativeToArchiveRoot) rootPath
  if r.2 then (goPathJoin absoluteDestination r.1, true)
  else ([], false)

/-- String-level wrapper of `archivePathToSystemPath`. -/
def archivePathToSystemPathS (p rootPath dest : String) : String × Bool :=
  let r := archivePathToSystemPath p.toList rootPath.toList dest.toList
  (String.mk r.1, r.2)

/-- String-level wrapper of `goPathClean`. -/
def goPathCleanS (p : String) : String :=
  String.mk (goPathClean p.toList)

/-- String-level wrapper of `goPathJoin`. -/
def goPathJoinS (a b : String) : String :=
  String.mk (goPathJoin a.toList b.toList)

/-- String-level wrapper of `goPathDir`. -/
def goPathDirS (p : String) : String :=
  String.mk (goPathDir p.toList)

/-- Modelled from the spec (§4.1), for comparison with the code's
`archivePathToSystemPath`: the spec's in-root condition is that the
canonicalized path either equals `rootPath` or begins with `rootPath`
followed by `/`. -/
def inRootSpec (p rootPath : List Char) : Bool :=
  goPathClean p == rootPath || (rootPath ++ ['/']).isPrefixOf (goPathClean p)

/-- A path `q` lies under the directory `dest` when it equals `dest` or
extends it below a `/` separator. -/
def underDir (q dest : List Char) : Bool :=
  q == dest || (dest ++ ['/']).isPrefixOf q

example : goPathCleanS "root/../../x" = "../x" := by decide
example : goPathCleanS "a../x" = "a../x" := by decide
example : goPathCleanS "/d/../x" = "/x" := by decide
example : goPathCleanS "" = "." := by decide
example : goPathCleanS "/" = "/" := by decide
example : goPathCleanS "a/b/.." = "a" := by decide
example : archivePathToSystemPathS "root/bin/hello" "root" "/d" = ("/d/bin/hello", true) := by decide
example : archivePathToSystemPathS "../../evil" "root" "/d" = ("", false) := by decide
example : goPathDirS "/path/to/cache/x/y" = "/path/to/cache/x" := by decide

/-! ### `utils.InterpolateStringLiteral` (src/unnamed/part_001 lines 66-122)

The Go function walks the byte string with an index; the model recurses over
the remaining characters, carrying the current index `pos` into the full input
so that the `CharacterIndex` values of the produced errors match the Go code
exactly. -/

/-- `utils.InterpolationError` (src/unnamed/part_001 lines 54-58). -/
structure InterpolationError where
  CharacterIndex : Nat
  MessageLines : List String
  InputString : List Char
deriving DecidableEq

/-- src/unnamed/part_001 line 64. -/
def accidentalInterpolationProtectionMessage : String :=
  "If you do not want to use an interpolation use `$$` instead of `$`"

/-- The two message lines used when a `$` is not followed by `$` or `\x7b`. -/
def dollarErrMsg : List String :=
  ["After `$`, expected either `$` or an interpolation consisting of `\x7b`, a string, and then `\x7d`",
   accidentalInterpolationProtectionMessage]

/-- The message lines of an unclosed interpolation chunk. -/
def unclosedErrMsg : List String :=
  ["Unclosed interpolation chunk",
   "Expected `\x7d` to close the interpolation",
   accidentalInterpolationProtectionMessage]

/-- `utils.InterpolateStringLiteral` as a left-to-right scan.  `full` is the
entire input (stored in error values), `pos` the index within `full` of the
head of the remaining input.  The second argument is the scanner mode: `none`
outside an interpolation; `some acc` inside `$\x7b...\x7d` with `acc` the
identifier characters read so far, in reverse (this models the Go code's inner
loop that advances `index` until it finds the closing brace).  The produced
`CharacterIndex` values match the Go code exactly: `len - 1` for a trailing
`$` or an unclosed chunk, `pos + 1` for a bad character after `$`, and the
index of the first identifier character (`pos - acc.length` at the closing
brace) for a failed interpolation lookup. -/
def interpolateAux (full : List Char) (f : List Char → Except String (List Char)) :
    Nat → Option (List Char) → List Char → Except InterpolationError (List Char)
  | _, none, [] => .ok []
  | _, some _, [] => .error ⟨full.length - 1, unclosedErrMsg, full⟩
  | pos, none, c :: rest =>
    if c = '$' then
      match rest with
      | [] => .error ⟨full.length - 1, dollarErrMsg, full⟩
      | d :: rest2 =>
        if d = '$' then
          (interpolateAux full f (pos + 2) none rest2).map (fun out => '$' :: out)
        else if d = '\x7b' then
          interpolateAux full f (pos + 2) (some []) rest2
        else .error ⟨pos + 1, dollarErrMsg, full⟩
    else (interpolateAux full f (pos + 1) none rest).map (fun out => c :: out)
  | pos, some acc, c :: rest =>
    if c = '\x7d' then
      match f acc.reverse with
      | .error msg =>
        .error ⟨pos - acc.length, ["Invalid interpolation chunk: " ++ msg], full⟩
      | .ok v =>
        (interpolateAux full f (pos + 1) none rest).map (fun out => v ++ out)
    else interpolateAux full f (pos + 1) (some (c :: acc)) rest

/-- `utils.InterpolateStringLiteral` (src/unnamed/part_001 lines 66-122). -/
def InterpolateStringLiteral (stringLiteral : List Char)
    (getInterpolationValue : List Char → Except String (List Char)) :
    Except InterpolationError (List Char) :=
  interpolateAux stringLiteral getInterpolationValue 0 none stringLiteral

/-- A string consisting of `n` consecutive `$$` escape pairs. -/
def dollarPairs : Nat → List Char
  | 0 => []
  | n + 1 => '$' :: '$' :: dollarPairs n

/-- A sample interpolation environment used in concrete checks. -/
def sampleInterp (s : List Char) : Except String (List Char) :=
  if s = ['x'] then .ok ['V'] else .error "No key"

example : InterpolateStringLiteral "abc".toList sampleInterp = .ok "abc".toList := rfl
example : InterpolateStringLiteral "$$".toList sampleInterp = .ok "$".toList := rfl
example : InterpolateStringLiteral "a$\x7bx\x7db".toList sampleInterp = .ok "aVb".toList := rfl
example : InterpolateStringLiteral "$a".toList sampleInterp =
    .error ⟨1, dollarErrMsg, "$a".toList⟩ := rfl
example : InterpolateStringLiteral "a$\x7bx".toList sampleInterp =
    .error ⟨3, unclosedErrMsg, "a$\x7bx".toList⟩ := rfl
example : InterpolateStringLiteral "a$\x7by\x7d".toList sampleInterp =
    .error ⟨3, ["Invalid interpolation chunk: No key"], "a$\x7by\x7d".toList⟩ := rfl

theorem interpolateAux_no_dollar (full : List Char)
    (f : List Char → Except String (List Char)) :
    ∀ (rest : List Char) (pos : Nat), '$' ∉ rest →
      interpolateAux full f pos none rest = .ok rest := by
  intro rest
  induction rest with
  | nil => intro pos _; rw [interpolateAux.eq_def]
  | cons c cs ih =>
    intro pos h
    have hc : ¬ c = '$' := fun e => h (e ▸ List.mem_cons_self c cs)
    have hcs : '$' ∉ cs := fun m => h (List.mem_cons_of_mem c m)
    rw [interpolateAux.eq_def]
    simp [hc, ih (pos + 1) hcs, Except.map]

theorem interpolateAux_pairs (full : List Char)
    (f : List Char → Except String (List Char)) :
    ∀ (n : Nat) (pos : Nat),
      interpolateAux full f pos none (dollarPairs n) = .ok (List.replicate n '$') := by
  intro n
  induction n with
  | zero => intro pos; rw [dollarPairs, interpolateAux.eq_def]; rfl
  | succ n ih =>
    intro pos
    rw [dollarPairs, interpolateAux.eq_def]
    simp [ih (pos + 2), Except.map, List.replicate]

theorem interpolateAux_error_index (full : List Char)
    (f : List Char → Except String (List Char)) :
    ∀ (n : Nat) (rest : List Char), rest.length ≤ n →
      ∀ (mode : Option (List Char)) (pos : Nat) (e : InterpolationError),
      pos + rest.length = full.length →
      (mode = none ∨ 0 < pos) →
      interpolateAux full f pos mode rest = .error e →
      e.CharacterIndex < full.length := by
  intro n
  induction n with
  | zero =>
    intro rest hlen mode pos e hsum hpos h
    have : rest = [] := List.length_eq_zero.mp (Nat.le_zero.mp hlen)
    subst this
    cases mode with
    | none => rw [interpolateAux.eq_def] at h; simp at h
    | some acc =>
      rw [interpolateAux.eq_def] at h
      simp at h
      rw [← h]
      simp at hsum ⊢
      rcases hpos with h0 | h0
      · exact absurd h0 (by simp)
      · omega
  | succ n ih =>
    intro rest hlen mode pos e hsum hpos h
    cases rest with
    | nil =>
      cases mode with
      | none => rw [interpolateAux.eq_def] at h; simp at h
      | some acc =>
        rw [interpolateAux.eq_def] at h
        simp at h
        rw [← h]
        simp at hsum ⊢
        rcases hpos with h0 | h0
        · exact absurd h0 (by simp)
        · omega
    | cons c cs =>
      simp only [List.length_cons] at hlen hsum
      cases mode with
      | none =>
        by_cases hc : c = '$'
        · subst hc
          cases cs with
          | nil =>
            rw [interpolateAux.eq_def] at h
            simp at h
            rw [← h]
            simp at hsum ⊢
            omega
          | cons d ds =>
            simp only [List.length_cons] at hlen hsum
            by_cases hd : d = '$'
            · subst hd
              rcases hrec : interpolateAux full f (pos + 2) none ds with e0 | v0
              · rw [interpolateAux.eq_def] at h
                simp [hrec, Except.map] at h
                exact ih ds (by omega) none (pos + 2) e (by omega) (Or.inl rfl)
                  (by rw [hrec, h])
              · rw [interpolateAux.eq_def] at h
                simp [hrec, Except.map] at h
            · by_cases hb : d = '\x7b'
              · subst hb
                rw [interpolateAux.eq_def] at h
                simp [hd] at h
                exact ih ds (by omega) (some []) (pos + 2) e (by omega)
                  (Or.inr (by omega)) h
              · rw [interpolateAux.eq_def] at h
                simp [hd, hb] at h
                rw [← h]
                simp
                omega
        · rcases hrec : interpolateAux full f (pos + 1) none cs with e0 | v0
          · rw [interpolateAux.eq_def] at h
            simp [hc, hrec, Except.map] at h
            exact ih cs (by omega) none (pos + 1) e (by omega) (Or.inl rfl)
              (by rw [hrec, h])
          · rw [interpolateAux.eq_def] at h
            simp [hc, hrec, Except.map] at h
      | some acc =>
        by_cases hc : c = '\x7d'
        · subst hc
          rcases hf : f acc.reverse with msg | v
          · rw [interpolateAux.eq_def] at h
            simp [hf] at h
            rw [← h]
            simp
            omega
          · rcases hrec : interpolateAux full f (pos + 1) none cs with e0 | v0
            · rw [interpolateAux.eq_def] at h
              simp [hf, hrec, Except.map] at h
              exact ih cs (by omega) none (pos + 1) e (by omega) (Or.inl rfl)
                (by rw [hrec, h])
            · rw [interpolateAux.eq_def] at h
              simp [hf, hrec, Except.map] at h
        · rw [interpolateAux.eq_def] at h
          simp [hc] at h
          exact ih cs (by omega) (some (c :: acc)) (pos + 1) e (by omega)
            (Or.inr (by omega)) h

/-! ### Association lists (model of Go maps) and small helpers -/

/-- Lookup in an association list (model of a Go map read). -/
def lookupA {α : Type} : List (String × α) → String → Option α
  | [], _ => none
  | (k, v) :: rest, key => if k = key then some v else lookupA rest key

/-- A hexadecimal digit's value (model of the per-character decoding of Go's
`encoding/hex`). -/
def hexDigitVal (c : Char) : Option Nat :=
  if '0' ≤ c ∧ c ≤ '9' then some (c.toNat - '0'.toNat)
  else if 'a' ≤ c ∧ c ≤ 'f' then some (c.toNat - 'a'.toNat + 10)
  else if 'A' ≤ c ∧ c ≤ 'F' then some (c.toNat - 'A'.toNat + 10)
  else none

/-- Go's `hex.DecodeString`: consumes the characters in pairs; odd length or a
non-hex character is an error (`none`). -/
def hexDecodeList : List Char → Option (List Nat)
  | [] => some []
  | [_] => none
  | a :: b :: rest =>
    match hexDigitVal a, hexDigitVal b, hexDecodeList rest with
    | some x, some y, some r => some ((x * 16 + y) :: r)
    | _, _, _ => none

/-- `hex.DecodeString` on a string. -/
def hexDecode (s : String) : Option (List Nat) :=
  hexDecodeList s.toList

/-! ### The license-description sentence (src/main.go lines 90-103)

`loadSource` builds a human-readable license sentence from the manifest's
`Licenses` list: 0 licenses and 1 license have fixed forms; otherwise the
list is sorted (`slices.Sort`, ascending) and the code appends
`license ++ ", "` for every license in `sorted[0 : len-2]` and finally
`"and " ++ sorted[len-1]`. -/

/-- Byte-wise (here: character-wise) lexicographic order, matching Go's
`<` on strings. -/
def charListLt : List Char → List Char → Bool
  | [], [] => false
  | [], _ :: _ => true
  | _ :: _, [] => false
  | a :: as, b :: bs =>
    if a.toNat < b.toNat then true
    else if b.toNat < a.toNat then false
    else charListLt as bs

/-- Go's `<` on strings. -/
def stringLt (a b : String) : Bool := charListLt a.toList b.toList

/-- Insert into an ascending list (ascending insertion sort step). -/
def insertSorted (s : String) : List String → List String
  | [] => [s]
  | t :: ts => if stringLt s t then s :: t :: ts else t :: insertSorted s ts

/-- The last element of a list of strings (empty string for an empty list);
`licenseDescription` only uses it on lists of length at least two. -/
def lastD : List String → String
  | [] => ""
  | [a] => a
  | _ :: b :: rest => lastD (b :: rest)

/-- Ascending sort of strings, modeling Go's `slices.Sort`. -/
def sortStrings (l : List String) : List String := l.foldr insertSorted []

/-- The license-description sentence of `loadSource`
(src/main.go lines 90-103). -/
def licenseDescription (licenses : List String) : String :=
  match licenses with
  | [] => "with an unknown license"
  | [l] => "licensed under " ++ l
  | _ =>
    let sorted := sortStrings licenses
    "licensed under "
      ++ String.join ((sorted.take (licenses.length - 2)).map (fun l => l ++ ", "))
      ++ "and " ++ lastD sorted

example : licenseDescription [] = "with an unknown license" := by decide
example : licenseDescription ["MIT"] = "licensed under MIT" := by decide

/-! ### `loadSource` (src/main.go lines 74-172)

The external effects of `loadSource` are parameters: `readSourceManifest`
models `os.ReadFile` plus `toml.Decode` of the given file path (its `.error`
carries the Go error message), `goarch` models `runtime.GOARCH`, and `shuffle`
models `utils.ShuffleSlice` (randomly seeded in Go).  The Go code mutates the
`loadedSources` map in place; the model threads it explicitly and returns the
updated map alongside the result.  The `panic` on a decoded checksum length
other than 32 is unreachable (the string's length was checked to be 64 and
`hexDecodeList` halves lengths) and is not modeled. -/

/-- The TOML fields of a source manifest (src/main.go lines 19-37). -/
structure unparsedSourceConfig where
  UrlInMirror : String := ""
  Mirrors : List String := []
  Compression : String := ""
  Checksums : List (String × String) := []
  FilesToMakeExecutable : List String := []
  RootPath : String := ""
  Version : List (String × String) := []
  ArchitectureNames : List (String × String) := []
  Homepage : String := ""
  Licenses : List String := []
  Description : String := ""
  ProgrammingLanguage : String := ""
  Env : List (String × List (String × String)) := []
  DirectSharedLibraryDependencies : List (String × List String) := []
  ExecutableDependencies : List (String × String) := []
  InstallationWarnings : List String := []
  KnownIssues : List String := []

/-- `parsedSourceConfig` (src/main.go lines 39-53). -/
structure parsedSourceConfig where
  compression : String
  filesToMakeExecutable : List String
  env : List (String × List (String × String))
  directSharedLibraryDependencies : List (String × List String)
  executableDependencies : List (String × String)
  installationWarnings : List String
  licenseDescription : String
  interpolationFunc : String → Except String String
  path : String
  parsedUrls : List String
  parsedChecksum : List Nat
  parsedRootPath : String

/-- `sourceLoadingError.Error()` (src/main.go lines 70-72). -/
def sourceLoadingErrorMessage (sourceName message : String) : String :=
  "Failed to load source `" ++ sourceName ++ "`: " ++ message

/-- `InterpolationError.Error()` (src/unnamed/part_001 lines 60-62). -/
def InterpolationError.message (e : InterpolationError) : String :=
  "`" ++ String.mk e.InputString ++ "`\n" ++ String.mk (List.replicate (e.CharacterIndex + 1) ' ')
    ++ "\n^ error occurred here\n" ++ String.intercalate "\n" e.MessageLines

/-- The errors `loadSource` can return: a `sourceLoadingError` or an
`InterpolationError` from interpolating `urlInMirror`/`rootPath`. -/
inductive LoadErr where
  | sourceLoadingError (sourceName message : String)
  | interpolationError (e : InterpolationError)

/-- The `Error()` text of a `loadSource` error. -/
def LoadErr.message : LoadErr → String
  | .sourceLoadingError n m => sourceLoadingErrorMessage n m
  | .interpolationError e => e.message

/-- The interpolation closure built by `loadSource`
(src/main.go lines 105-121): `architecture` maps to
`ArchitectureNames[GOARCH]` (default `GOARCH`), `version.KEY` maps to
`Version[KEY]`, anything else is an error. -/
def sourceInterpolationFunc (goarch nameOfSourceToLoad : String)
    (conf : unparsedSourceConfig) (s : String) : Except String String :=
  if s = "architecture" then
    .ok ((lookupA conf.ArchitectureNames goarch).getD goarch)
  else
    let r := TrimPrefix s.toList "version.".toList
    if r.2 then
      match lookupA conf.Version (String.mk r.1) with
      | some v => .ok v
      | none => .error ("No key `" ++ String.mk r.1 ++ "` in version")
    else
      .error (sourceLoadingErrorMessage nameOfSourceToLoad
        ("Expected either `architecture`, or `version.` followed by a key in the `version` value. Got " ++ s))

/-- `utils.InterpolateStringLiteral` lifted to `String` values. -/
def interpolateS (s : String) (f : String → Except String String) :
    Except InterpolationError String :=
  (InterpolateStringLiteral s.toList
    (fun ident => (f (String.mk ident)).map String.toList)).map String.mk

/-- `loadSource` (src/main.go lines 74-172), state-passing over the
memoization map.  Returns the result together with the map as it stands when
the function returns. -/
def loadSource
    (readSourceManifest : String → Except String unparsedSourceConfig)
    (goarch : String)
    (shuffle : List String → List String)
    (sourcesDirPath downloadedSourcesDirPath : String)
    (loadedSources : List (String × parsedSourceConfig))
    (nameOfSourceToLoad : String) :
    Except LoadErr parsedSourceConfig × List (String × parsedSourceConfig) :=
  match lookupA loadedSources nameOfSourceToLoad with
  | some parsedSourceConf => (.ok parsedSourceConf, loadedSources)
  | none =>
    match readSourceManifest (goPathJoinS sourcesDirPath (nameOfSourceToLoad ++ ".toml")) with
    | .error msg => (.error (.sourceLoadingError nameOfSourceToLoad msg), loadedSources)
    | .ok unparsedSourceConf =>
      match interpolateS unparsedSourceConf.UrlInMirror
          (sourceInterpolationFunc goarch nameOfSourceToLoad unparsedSourceConf) with
      | .error e => (.error (.interpolationError e), loadedSources)
      | .ok urlInMirror =>
        match lookupA unparsedSourceConf.Checksums urlInMirror with
        | none =>
          (.error (.sourceLoadingError nameOfSourceToLoad
            ("The checksum for " ++ urlInMirror ++ " is not specified. Bento requires checksums to be specified.")), loadedSources)
        | some checksumString =>
          if checksumString.length ≠ 64 then
            (.error (.sourceLoadingError nameOfSourceToLoad
              ("Expected checksum to be 64 characters, but it is "
                ++ toString checksumString.length ++ " characters")), loadedSources)
          else
            match hexDecode checksumString with
            | none =>
              (.error (.sourceLoadingError nameOfSourceToLoad
                "Failed to decode checksum: invalid hexadecimal input"), loadedSources)
            | some checksum =>
              match interpolateS unparsedSourceConf.RootPath
                  (sourceInterpolationFunc goarch nameOfSourceToLoad unparsedSourceConf) with
              | .error e => (.error (.interpolationError e), loadedSources)
              | .ok rootPath =>
                let urls := unparsedSourceConf.Mirrors.map
                  (fun mirror => mirror ++ "/" ++ urlInMirror)
                let parsedSourceConf : parsedSourceConfig := {
                  compression := unparsedSourceConf.Compression
                  filesToMakeExecutable := unparsedSourceConf.FilesToMakeExecutable
                  env := unparsedSourceConf.Env
                  directSharedLibraryDependencies :=
                    unparsedSourceConf.DirectSharedLibraryDependencies
                  executableDependencies := unparsedSourceConf.ExecutableDependencies
                  installationWarnings := unparsedSourceConf.InstallationWarnings
                  licenseDescription := licenseDescription unparsedSourceConf.Licenses
                  interpolationFunc :=
                    sourceInterpolationFunc goarch nameOfSourceToLoad unparsedSourceConf
                  path := goPathJoinS downloadedSourcesDirPath nameOfSourceToLoad
                  parsedUrls := shuffle urls
                  parsedChecksum := checksum
                  parsedRootPath := rootPath }
                (.ok parsedSourceConf,
                 (nameOfSourceToLoad, parsedSourceConf) :: loadedSources)

/-! ### `loadLibrary` (src/main.go lines 174-209)

`loadLibrary` recurses into each `directSharedLibraryDependencies` entry
*before* it writes any entry into the `loadedLibraries` map (the write happens
at line 206, only for non-`system` sources, after the recursion at lines
195-200).  The model makes the recursion depth explicit with a `fuel`
parameter: one unit of fuel is one Go stack frame, and a result of `none`
means the computation did not finish within that depth.  If
`loadLibraryFuel ... fuel ... = none` holds for every `fuel`, the Go function
recurses forever (a stack overflow in practice).  On an error return the Go
caller aborts, so the model's error value does not carry the maps. -/

/-- The TOML fields of a library manifest (src/main.go lines 55-59). -/
structure unparsedLibrary where
  Source : String := ""
  Directory : String := ""
  DirectSharedLibraryDependencies : List String := []

/-- `parsedLibrary` (src/main.go lines 61-63). -/
structure parsedLibrary where
  absoluteDirectory : String
deriving DecidableEq

/-- The `Failed to load library ...` error text of `loadLibrary`. -/
def libraryLoadErrorMessage (name msg : String) : String :=
  "Failed to load library " ++ name ++ ": " ++ msg

/-- `loadLibrary` (src/main.go lines 174-209) with an explicit recursion-depth
budget. -/
def loadLibraryFuel
    (readLibraryManifest : String → Except String unparsedLibrary)
    (readSourceManifest : String → Except String unparsedSourceConfig)
    (goarch : String) (shuffle : List String → List String)
    (librariesDirPath sourcesDirPath downloadedSourcesDirPath : String) :
    Nat →
    List (String × parsedLibrary) → List (String × parsedSourceConfig) →
    String →
    Option (Except String
      (List (String × parsedLibrary) × List (String × parsedSourceConfig)))
  | 0, _, _, _ => none
  | fuel + 1, loadedLibraries, loadedSources, nameOfLibraryToLoad =>
    match lookupA loadedLibraries nameOfLibraryToLoad with
    | some _ => some (.ok (loadedLibraries, loadedSources))
    | none =>
      match readLibraryManifest
          (goPathJoinS librariesDirPath (nameOfLibraryToLoad ++ ".toml")) with
      | .error msg =>
        some (.error (libraryLoadErrorMessage nameOfLibraryToLoad msg))
      | .ok unparsedLibraryConfig =>
        match unparsedLibraryConfig.DirectSharedLibraryDependencies.foldl
            (fun (acc : Option (Except String
                (List (String × parsedLibrary) × List (String × parsedSourceConfig))))
              dep =>
              match acc with
              | some (Except.ok (libs, srcs)) =>
                loadLibraryFuel readLibraryManifest readSourceManifest goarch shuffle
                  librariesDirPath sourcesDirPath downloadedSourcesDirPath
                  fuel libs srcs dep
              | other => other)
            (some (Except.ok (loadedLibraries, loadedSources))) with
        | none => none
        | some (Except.error e) => some (.error e)
        | some (Except.ok (libs2, srcs2)) =>
          if unparsedLibraryConfig.Source ≠ "system" then
            match loadSource readSourceManifest goarch shuffle
                sourcesDirPath downloadedSourcesDirPath srcs2
                unparsedLibraryConfig.Source with
            | (.error e, _) =>
              some (.error (libraryLoadErrorMessage nameOfLibraryToLoad e.message))
            | (.ok sourceConf, srcs3) =>
              some (.ok ((nameOfLibraryToLoad,
                ⟨goPathJoinS sourceConf.path unparsedLibraryConfig.Directory⟩) :: libs2,
                srcs3))
          else some (.ok (libs2, srcs2))

/-- A two-library cycle: library `A` depends on `B`, library `B` depends on
`A`; both resolve to the `system` source. -/
def cyclicLibraryFS (p : String) : Except String unparsedLibrary :=
  if p = "lib/A.toml" then
    .ok { Source := "system", DirectSharedLibraryDependencies := ["B"] }
  else if p = "lib/B.toml" then
    .ok { Source := "system", DirectSharedLibraryDependencies := ["A"] }
  else .error "no such file or directory"

/-- A sources directory with no manifests at all. -/
def emptySourceFS (_ : String) : Except String unparsedSourceConfig :=
  .error "no such file or directory"


theorem loadLibraryFuel_cycle_step (n : Nat) (name other : String)
    (hname : cyclicLibraryFS (goPathJoinS "lib" (name ++ ".toml")) =
      .ok { Source := "system", DirectSharedLibraryDependencies := [other] })
    (hother : loadLibraryFuel cyclicLibraryFS emptySourceFS "amd64" id
      "lib" "sources" "dl" n [] [] other = none) :
    loadLibraryFuel cyclicLibraryFS emptySourceFS "amd64" id
      "lib" "sources" "dl" (n + 1) [] [] name = none := by
  rw [loadLibraryFuel]
  simp [lookupA, hname, hother]

theorem loadLibrary_cycle_diverges_pair : ∀ fuel : Nat,
    loadLibraryFuel cyclicLibraryFS emptySourceFS "amd64" id
      "lib" "sources" "dl" fuel [] [] "A" = none ∧
    loadLibraryFuel cyclicLibraryFS emptySourceFS "amd64" id
      "lib" "sources" "dl" fuel [] [] "B" = none := by
  intro fuel
  induction fuel with
  | zero => exact ⟨rfl, rfl⟩
  | succ n ih =>
    exact ⟨loadLibraryFuel_cycle_step n "A" "B" rfl ih.2,
           loadLibraryFuel_cycle_step n "B" "A" rfl ih.1⟩

/-! ### The download worker (src/utils/networking.go lines 18-122)

`download` loops over the request's URLs: a fetch error or (when enabled) a
SHA-256 mismatch is non-fatal and moves on to the next URL; after a verified
fetch the worker optionally deletes the destination, extracts, chmods the
listed files, and sets the terminal state.  The model returns the list of
states the worker writes through `status.setState`, in order; the last element
is the terminal state.  External behavior is parameterized: `fetchF` is the
per-URL network outcome (the body bytes or an error), `sha256F` the hash
function from `crypto/sha256`, and `extractF` the result of
`utils.extract` (`none` for success, `some msg` for an error).  The results of
`os.RemoveAll`, `os.Stat` and `os.Chmod` only produce log lines in the Go code
and never change the status sequence, so they are not parameters.  The
progress percentages emitted inside `fetch` depend on network chunking and are
modeled by the single `"fetching"` state that `fetch` always sets first
(networking.go line 19); the percentage arithmetic itself is modeled
separately by `progressPercent`. -/

/-- `utils.DownloadOptions` (src/utils/networking.go lines 53-63). -/
structure DownloadOptions where
  Name : String
  Urls : List String
  Compression : String
  UseChecksum : Bool
  Checksum : List Nat
  FilesToMakeExecutable : List String
  RootPath : String
  Destination : String
  DeleteExistingFilesAtDestination : Bool

/-- The external behavior a download worker interacts with. -/
structure DownloadWorld where
  fetchF : String → Except String (List Nat)
  sha256F : List Nat → List Nat
  extractF : List Nat → String → String → String → Option String

/-- The `making files executable (i/n)` states for the chmod loop
(src/utils/networking.go lines 101-115), for files `i+1 .. total` of
`total`. -/
def chmodStates (total : Nat) : Nat → List String → List String
  | _, [] => []
  | i, _ :: files =>
    ("making files executable (" ++ toString (i + 1) ++ "/" ++ toString total ++ ")")
      :: chmodStates total (i + 1) files

/-- The states written after a fetched body has passed verification:
optional delete, extract (fatal on failure), chmod loop, `done`
(src/utils/networking.go lines 84-118). -/
def afterVerifyStates (w : DownloadWorld) (options : DownloadOptions)
    (response : List Nat) : List String :=
  (if options.DeleteExistingFilesAtDestination then ["deleting old files"] else [])
    ++ "extracting" ::
      (match w.extractF response options.Compression options.Destination
          options.RootPath with
       | some _ => ["failed"]
       | none =>
         chmodStates options.FilesToMakeExecutable.length 0
           options.FilesToMakeExecutable ++ ["done"])

/-- The URL loop of `download` (src/utils/networking.go lines 66-122): the
status states written while trying the given URLs in order. -/
def downloadStates (w : DownloadWorld) (options : DownloadOptions) :
    List String → List String
  | [] => ["failed"]
  | url :: rest =>
    "fetching" ::
      (match w.fetchF url with
       | .error _ => downloadStates w options rest
       | .ok response =>
         if options.UseChecksum then
           "checking hash" ::
             (if w.sha256F response = options.Checksum then
               afterVerifyStates w options response
             else downloadStates w options rest)
         else afterVerifyStates w options response)

/-- `download` (src/utils/networking.go lines 65-122): the full status
sequence of one worker. -/
def download (w : DownloadWorld) (options : DownloadOptions) : List String :=
  downloadStates w options options.Urls

/-! ### `fetch` progress wiring and the percentage callback
(src/utils/networking.go lines 18-51, src/unnamed/part_001 lines 185-201)

`fetch` wraps the response body in a `progressReader` whenever the
`Content-Length` header is a non-empty parseable integer — including `0`.
Every `progressReader.Read` call (io.Copy performs at least one, even for an
empty body) invokes the callback, which computes
`(contentReadInBytes*100)/contentLengthInBytes` with Go integer division:
a zero divisor panics at runtime.  `goDivInt` models Go division, with `none`
for the panicking zero-divisor case. -/

/-- Go integer division: truncated toward zero; division by zero panics
(modeled as `none`). -/
def goDivInt (a b : Int) : Option Int :=
  if b = 0 then none else some (Int.tdiv a b)

/-- `progress` (src/unnamed/part_001 lines 185-188). -/
structure progress where
  contentLengthInBytes : Int
  contentReadInBytes : Int
deriving DecidableEq, Repr

/-- The percentage computed by the callback installed in `fetch`
(src/utils/networking.go line 38):
`(p.contentReadInBytes*100)/p.contentLengthInBytes`. -/
def progressPercent (p : progress) : Option Int :=
  goDivInt (p.contentReadInBytes * 100) p.contentLengthInBytes

/-- `progressReader.Read` (src/unnamed/part_001 lines 196-201): add the bytes
read to the running count and invoke the callback; the second component is
the percentage the callback computes. -/
def progressReaderRead (p : progress) (n : Int) : progress × Option Int :=
  let p2 : progress := { p with contentReadInBytes := p.contentReadInBytes + n }
  (p2, progressPercent p2)

/-- Go's `strconv.ParseInt(s, 10, 64)`: optional sign, one or more decimal
digits, 64-bit range check. -/
def goParseInt64 (s : String) : Option Int :=
  let parseDigits : List Char → Option Nat := fun l =>
    if l = [] then none
    else l.foldl (fun acc c =>
      match acc with
      | none => none
      | some n => if '0' ≤ c ∧ c ≤ '9' then some (n * 10 + (c.toNat - '0'.toNat)) else none)
      (some 0)
  let signed : List Char → Option Int := fun l =>
    match l with
    | '-' :: rest => (parseDigits rest).map (fun n => -(n : Int))
    | '+' :: rest => (parseDigits rest).map (fun n => (n : Int))
    | _ => (parseDigits l).map (fun n => (n : Int))
  match signed s.toList with
  | none => none
  | some v => if -(2 ^ 63) ≤ v ∧ v < 2 ^ 63 then some v else none

/-- How `fetch` sets up the body reader from the `Content-Length` header
(src/utils/networking.go lines 26-41): no wrapper when the header is absent
(empty string), a fetch error when it does not parse, and otherwise a
`progressReader` whose `contentLengthInBytes` is the parsed value — with no
positivity check. -/
inductive FetchReaderSetup where
  | plainBody
  | parseError
  | progressWrapper (initial : progress)
deriving DecidableEq, Repr

/-- The reader-setup step of `fetch`. -/
def fetchReaderSetup (contentLength : String) : FetchReaderSetup :=
  if contentLength = "" then .plainBody
  else
    match goParseInt64 contentLength with
    | none => .parseError
    | some length => .progressWrapper { contentLengthInBytes := length, contentReadInBytes := 0 }

/-! ### `main` argument handling (src/main.go lines 213-273)

The model maps the raw `os.Args` list to the action `main` takes before any
resolution work.  `utils.TakeOneArg`/`utils.TakeArgs` failures, the unknown
subcommand branch, and extra-argument failures all call `utils.Fail`
(print to stderr, exit 1) and are modeled as `usageFailure`.  The
`lastArg == "-m"` guard against the argcomplete probe calls `os.Exit(1)`
directly and is modeled as `completionProbeExit`.  `runUpdate` and `runExec`
are the two outcomes that go on to perform disk and network work:
`runExec` carries the arguments `main` passes to `exec`
(src/main.go line 269), including `bentoDir = path.Dir(path.Dir(lastArg))`. -/

/-- What `main` does with a given `os.Args`. -/
inductive MainOutcome where
  | usageFailure
  | printedHelp
  | runUpdate
  | completionProbeExit
  | runExec (sourceName sourceExecutableRelativePath bentoDir : String)
      (argsToPass : List String)
deriving DecidableEq, Repr

/-- The `for lastArg == "--arg"` loop (src/main.go lines 246-253): consume
`--arg value` pairs, accumulating the values; `none` when `utils.TakeArgs`
runs out of arguments. -/
def execArgLoop : String → List String → List String →
    Option (String × List String × List String)
  | lastArg, acc, remaining =>
    if lastArg = "--arg" then
      match remaining with
      | argValue :: nextLast :: rest => execArgLoop nextLast (acc ++ [argValue]) rest
      | _ => none
    else some (lastArg, acc, remaining)

/-- `main` (src/main.go lines 213-273) up to the hand-off decision. -/
def mainModel (osArgs : List String) : MainOutcome :=
  match osArgs.drop 1 with
  | [] => .usageFailure
  | subcommand :: rest =>
    if subcommand = "help" then
      if rest = [] then .printedHelp else .usageFailure
    else if subcommand = "update" then
      if rest = [] then .runUpdate else .usageFailure
    else if subcommand = "exec" then
      match rest with
      | sourceName :: sourceExecutableRelativePath :: lastArg :: rest2 =>
        match execArgLoop lastArg [] rest2 with
        | none => .usageFailure
        | some (finalLastArg, argsToPass, remaining) =>
          if finalLastArg = "-m" then .completionProbeExit
          else
            .runExec sourceName sourceExecutableRelativePath
              (goPathDirS (goPathDirS finalLastArg)) (argsToPass ++ remaining)
      | _ => .usageFailure
    else .usageFailure

/-! ### Environment assembly before `syscall.Exec`
(src/main.go lines 342-427, in particular lines 412-424)

The `exec` function collects the values of the `libraries` map (which
`loadLibrary` populates only for non-`system` sources), de-duplicates their
`absoluteDirectory` fields through a Go hash map, joins them with `:` and
assigns the result to `executableEnvironment["LD_LIBRARY_PATH"]`, overwriting
any inherited value; the map is then flattened to `KEY=VALUE` strings.  A Go
map iterates in unspecified order; the model fixes a canonical order
(`List.dedup`), which represents one admissible iteration order of the
hash-map keys. -/

/-- Write into an environment map (modeled as a key-unique association
list): remove any binding of the key, then append the new binding. -/
def envSet (env : List (String × String)) (key value : String) :
    List (String × String) :=
  env.filter (fun p => !(p.1 == key)) ++ [(key, value)]

/-- Read an environment map. -/
def envLookup (env : List (String × String)) (key : String) : Option String :=
  (env.find? (fun p => p.1 == key)).map (fun p => p.2)

/-- Flatten an environment map to the `KEY=VALUE` strings handed to
`syscall.Exec` (src/main.go lines 420-423). -/
def flattenEnv (env : List (String × String)) : List String :=
  env.map (fun p => p.1 ++ "=" ++ p.2)

/-- The de-duplicated library directory list (src/main.go lines 412-417). -/
def librariesPathsList (libraries : List parsedLibrary) : List String :=
  (libraries.map parsedLibrary.absoluteDirectory).dedup

/-- The `LD_LIBRARY_PATH` value (src/main.go line 418):
`strings.Join(librariesPathsList, ":")`. -/
def buildLdLibraryPath (libraries : List parsedLibrary) : String :=
  String.intercalate ":" (librariesPathsList libraries)

/-- The environment after line 418 of src/main.go. -/
def setLdLibraryPath (env : List (String × String))
    (libraries : List parsedLibrary) : List (String × String) :=
  envSet env "LD_LIBRARY_PATH" (buildLdLibraryPath libraries)

theorem find_key_append {k v : String} :
    ∀ (l : List (String × String)), (∀ q ∈ l, q.1 ≠ k) →
      List.find? (fun p => p.1 == k) (l ++ [(k, v)]) = some (k, v)
  | [], _ => by simp [List.find?]
  | q :: rest, h => by
    have hq : ¬ (q.1 == k) = true := by
      simpa using h q (List.mem_cons_self q rest)
    simp only [List.cons_append, List.find?, hq]
    exact find_key_append rest (fun r hr => h r (List.mem_cons_of_mem q hr))

theorem envLookup_envSet (env : List (String × String)) (k v : String) :
    envLookup (envSet env k v) k = some v := by
  unfold envLookup envSet
  rw [find_key_append]
  · rfl
  · intro q hq
    have := List.of_mem_filter hq
    simpa using this

theorem getLast?_cons_of_ne_nil {α : Type} (a : α) {l : List α} (h : l ≠ []) :
    (a :: l).getLast? = l.getLast? := by
  cases l with
  | nil => exact absurd rfl h
  | cons b t => exact List.getLast?_cons_cons

theorem downloadStates_ne_nil (w : DownloadWorld) (options : DownloadOptions) :
    ∀ urls : List String, downloadStates w options urls ≠ []
  | [] => by simp [downloadStates]
  | u :: rest => by simp [downloadStates]

theorem afterVerifyStates_getLast?_done (w : DownloadWorld) (options : DownloadOptions)
    (response : List Nat)
    (h : w.extractF response options.Compression options.Destination options.RootPath
      = none) :
    (afterVerifyStates w options response).getLast? = some "done" := by
  unfold afterVerifyStates
  rw [h]
  rw [List.getLast?_append_cons]
  rw [getLast?_cons_of_ne_nil _ (by simp)]
  exact List.getLast?_concat _

theorem afterVerifyStates_getLast?_failed (w : DownloadWorld) (options : DownloadOptions)
    (response : List Nat) (msg : String)
    (h : w.extractF response options.Compression options.Destination options.RootPath
      = some msg) :
    (afterVerifyStates w options response).getLast? = some "failed" := by
  unfold afterVerifyStates
  rw [h]
  rw [List.getLast?_append_cons]
  rw [getLast?_cons_of_ne_nil _ (by simp)]
  rfl

theorem download_mirror_fallback (w : DownloadWorld) (options : DownloadOptions)
    (A B C : String) (eA : String) (bB : List Nat)
    (hU : options.Urls = [A, B, C])
    (hChk : options.UseChecksum = true)
    (hA : w.fetchF A = .error eA)
    (hB : w.fetchF B = .ok bB)
    (hBm : w.sha256F bB ≠ options.Checksum) :
    (download w options).getLast? = some "done" ↔
      ∃ bC, w.fetchF C = .ok bC ∧ w.sha256F bC = options.Checksum ∧
        w.extractF bC options.Compression options.Destination options.RootPath
          = none := by
  unfold download
  rw [hU]
  rw [show downloadStates w options [A, B, C] =
    "fetching" :: "fetching" :: "checking hash" :: downloadStates w options [C] by
      simp [downloadStates, hA, hB, hChk, hBm]]
  rw [getLast?_cons_of_ne_nil _ (by simp),
      getLast?_cons_of_ne_nil _ (by simp),
      getLast?_cons_of_ne_nil _ (downloadStates_ne_nil w options [C])]
  rcases hC : w.fetchF C with eC | bC
  · rw [show downloadStates w options [C] = ["fetching", "failed"] by
      simp [downloadStates, hC]]
    constructor
    · intro h; exact absurd h (by decide)
    · rintro ⟨bC, hbc, -⟩
      simp at hbc
  · by_cases hsha : w.sha256F bC = options.Checksum
    · rw [show downloadStates w options [C] =
        "fetching" :: "checking hash" :: afterVerifyStates w options bC by
          simp [downloadStates, hC, hChk, hsha]]
      rw [getLast?_cons_of_ne_nil _ (by simp),
          getLast?_cons_of_ne_nil _ (by
            unfold afterVerifyStates
            rcases w.extractF bC options.Compression options.Destination
              options.RootPath with _ | m <;> simp)]
      rcases hex : w.extractF bC options.Compression options.Destination
          options.RootPath with _ | msg
      · rw [afterVerifyStates_getLast?_done w options bC hex]
        constructor
        · intro _; exact ⟨bC, rfl, hsha, hex⟩
        · intro _; rfl
      · rw [afterVerifyStates_getLast?_failed w options bC msg hex]
        constructor
        · intro h; exact absurd h (by decide)
        · rintro ⟨bC2, hbc2, -, hex2⟩
          have : bC2 = bC := by simpa using hbc2.symm
          subst this
          rw [hex] at hex2
          exact absurd hex2 (by simp)
    · rw [show downloadStates w options [C] =
        "fetching" :: "checking hash" :: ["failed"] by
          simp [downloadStates, hC, hChk, hsha]]
      constructor
      · intro h; exact absurd h (by decide)
      · rintro ⟨bC2, hbc2, hsha2, -⟩
        have : bC2 = bC := by simpa using hbc2.symm
        subst this
        exact absurd hsha2 hsha

theorem loadSource_cases
    (readSourceManifest : String → Except String unparsedSourceConfig)
    (goarch : String) (shuffle : List String → List String)
    (sourcesDirPath downloadedSourcesDirPath : String)
    (loadedSources : List (String × parsedSourceConfig)) (name : String) :
    (∃ e, loadSource readSourceManifest goarch shuffle sourcesDirPath
        downloadedSourcesDirPath loadedSources name = (.error e, loadedSources)) ∨
    (∃ conf, lookupA loadedSources name = some conf ∧
      loadSource readSourceManifest goarch shuffle sourcesDirPath
        downloadedSourcesDirPath loadedSources name = (.ok conf, loadedSources)) ∨
    (∃ conf, loadSource readSourceManifest goarch shuffle sourcesDirPath
        downloadedSourcesDirPath loadedSources name
          = (.ok conf, (name, conf) :: loadedSources)) := by
  unfold loadSource
  split
  · next conf0 h0 => exact Or.inr (Or.inl ⟨conf0, h0, rfl⟩)
  · next h0 =>
    split
    · exact Or.inl ⟨_, rfl⟩
    · split
      · exact Or.inl ⟨_, rfl⟩
      · split
        · exact Or.inl ⟨_, rfl⟩
        · split
          · exact Or.inl ⟨_, rfl⟩
          · split
            · exact Or.inl ⟨_, rfl⟩
            · split
              · exact Or.inl ⟨_, rfl⟩
              · exact Or.inr (Or.inr ⟨_, rfl⟩)

/-! ### Claim theorems -/

/-- C1: the claim says every path returned by `archivePathToSystemPath` lies
under the destination directory.  The code violates it: the tar entry `a../x`
with root prefix `a` and destination `/d` cleans to `a../x`, passes the plain
`TrimPrefix` check, and maps to `/x` — outside `/d` — contradicting the
`SECURITY` comment at src/utils/compression.go lines 16-17; `extractTar`
(lines 97-131) would write this regular-file entry at `/x`. -/
theorem archivePathToSystemPath_escapes_destination :
    archivePathToSystemPathS "a../x" "a" "/d" = ("/x", true) ∧
    underDir "/x".toList "/d".toList = false := by decide

/-- C2: the claim says `loadLibrary` terminates on every library graph,
including cycles.  The code violates it: on the two-library cycle `A ↔ B`
(both with `source = "system"`), `loadLibraryFuel` exhausts every finite
recursion-depth budget, because the memoization entry is only written *after*
the recursive calls (src/main.go line 206 versus lines 195-200), so the
memo check at line 182 never fires inside the cycle. -/
theorem loadLibrary_cycle_diverges (fuel : Nat) :
    loadLibraryFuel cyclicLibraryFS emptySourceFS "amd64" id
      "lib" "sources" "dl" fuel [] [] "A" = none :=
  (loadLibrary_cycle_diverges_pair fuel).1

/-- C3 counterexample: the claim says not-in-root is returned exactly when the
canonicalized path neither equals the root prefix nor begins with the root
prefix followed by `/`.  For the path `rootX/file` with root prefix `root`,
that condition fails (`inRootSpec` is `false`), yet the code treats the entry
as in-root and returns `/d/X/file`. -/
theorem archivePathToSystemPath_spec_mismatch :
    inRootSpec "rootX/file".toList "root".toList = false ∧
    archivePathToSystemPathS "rootX/file" "root" "/d" = ("/d/X/file", true) := by decide

/-- C3 amended: `archivePathToSystemPath` returns not-in-root exactly when the
lexically canonicalized archive path does not have the root prefix as a plain
string prefix; otherwise it returns `path.Join(destination, canonical minus
rootPrefix)`. -/
theorem archivePathToSystemPath_plain_prefix_characterization
    (p rootPath dest : List Char) :
    archivePathToSystemPath p rootPath dest =
      if rootPath.isPrefixOf (goPathClean p) then
        (goPathJoin dest ((goPathClean p).drop rootPath.length), true)
      else ([], false) := by
  unfold archivePathToSystemPath TrimPrefix
  by_cases h : rootPath.isPrefixOf (goPathClean p) = true <;> simp [h]

/-- C4 counterexample world: URL `A` fails with a network error, `B` returns
bytes whose hash mismatches, `C` returns bytes whose hash matches, but
extraction fails. -/
def mismatchWorld : DownloadWorld where
  fetchF := fun url =>
    if url = "A" then .error "connection refused"
    else if url = "B" then .ok []
    else if url = "C" then .ok [7]
    else .error "no route to host"
  sha256F := fun b => [b.length]
  extractF := fun _ _ _ _ => some "unexpected EOF"

/-- The same world with extraction succeeding. -/
def extractOkWorld : DownloadWorld where
  fetchF := mismatchWorld.fetchF
  sha256F := mismatchWorld.sha256F
  extractF := fun _ _ _ _ => none

/-- A three-URL checksummed download request. -/
def abcOptions : DownloadOptions where
  Name := "src1"
  Urls := ["A", "B", "C"]
  Compression := ".tar.gz"
  UseChecksum := true
  Checksum := [1]
  FilesToMakeExecutable := []
  RootPath := "root"
  Destination := "/d"
  DeleteExistingFilesAtDestination := false

/-- C4 counterexample: in a run where URL `A` fails, `B` mismatches and `C`
returns verified bytes, the claim predicts state `done`; but if extraction of
the verified bytes fails, the worker ends in `failed`, so the claimed
equivalence is false as stated. -/
theorem download_mirror_fallback_counterexample :
    mismatchWorld.fetchF "A" = .error "connection refused" ∧
    mismatchWorld.fetchF "B" = .ok [] ∧
    mismatchWorld.sha256F [] ≠ abcOptions.Checksum ∧
    mismatchWorld.fetchF "C" = .ok [7] ∧
    mismatchWorld.sha256F [7] = abcOptions.Checksum ∧
    (download mismatchWorld abcOptions).getLast? ≠ some "done" := by
  refine ⟨rfl, rfl, by decide, rfl, rfl, by decide⟩

/-- C5: the claim (and spec) says two licenses produce
`licensed under A and B` with both names present, and three or more produce
the sorted Oxford-comma list with every name present.  The code's loop over
`sorted[0 : len-2]` (src/main.go lines 99-102) omits the license at index
`len-2`: two licenses `MIT`, `Apache-2.0` yield `licensed under and MIT`
(no `Apache-2.0`), and `A`, `B`, `C` yield `licensed under A, and C`
(no `B`). -/
theorem licenseDescription_drops_second_to_last :
    licenseDescription ["MIT", "Apache-2.0"] = "licensed under and MIT" ∧
    licenseDescription ["A", "B", "C"] = "licensed under A, and C" := by decide

/-- C6: `InterpolateStringLiteral` returns inputs without `$` unchanged, maps
`n` consecutive `$$` escape pairs to `n` dollar signs, and every error it
returns carries a character index less than the input length (hence in
`[0, len)`, the lower bound being trivial for a natural number). -/
theorem interpolate_properties :
    (∀ (s : List Char) (f : List Char → Except String (List Char)),
      '$' ∉ s → InterpolateStringLiteral s f = .ok s) ∧
    (∀ (n : Nat) (f : List Char → Except String (List Char)),
      InterpolateStringLiteral (dollarPairs n) f = .ok (List.replicate n '$')) ∧
    (∀ (s : List Char) (f : List Char → Except String (List Char))
      (e : InterpolationError),
      InterpolateStringLiteral s f = .error e → e.CharacterIndex < s.length) := by
  refine ⟨?_, ?_, ?_⟩
  · intro s f h
    exact interpolateAux_no_dollar s f s 0 h
  · intro n f
    exact interpolateAux_pairs (dollarPairs n) f n 0
  · intro s f e h
    exact interpolateAux_error_index s f s.length s (le_refl _) none 0 e (by simp)
      (Or.inl rfl) h

/-- C6 witness: the three parts of `interpolate_properties` applied at
concrete inputs. -/
theorem interpolate_properties_witness :
    InterpolateStringLiteral "abc".toList sampleInterp = .ok "abc".toList ∧
    InterpolateStringLiteral (dollarPairs 2) sampleInterp
      = .ok (List.replicate 2 '$') ∧
    (⟨0, dollarErrMsg, "$".toList⟩ : InterpolationError).CharacterIndex
      < "$".toList.length :=
  ⟨interpolate_properties.1 "abc".toList sampleInterp (by decide),
   interpolate_properties.2.1 2 sampleInterp,
   interpolate_properties.2.2 "$".toList sampleInterp
     ⟨0, dollarErrMsg, "$".toList⟩ rfl⟩

/-- C7: after line 418 of src/main.go, `LD_LIBRARY_PATH` is bound (for every
inherited environment, i.e. overwriting any inherited value) to the `:`-join
of the de-duplicated `absoluteDirectory` values of the resolved libraries
(which `loadLibrary` records only for non-`system` sources); the flattened
`KEY=VALUE` environment passed to `syscall.Exec` contains that binding; the
joined directory list has no duplicates and contains exactly the resolved
library directories. -/
theorem ld_library_path_assembly (env0 : List (String × String))
    (libraries : List parsedLibrary) :
    envLookup (setLdLibraryPath env0 libraries) "LD_LIBRARY_PATH" =
      some (String.intercalate ":" (librariesPathsList libraries)) ∧
    ("LD_LIBRARY_PATH=" ++ String.intercalate ":" (librariesPathsList libraries)) ∈
      flattenEnv (setLdLibraryPath env0 libraries) ∧
    (librariesPathsList libraries).Nodup ∧
    (∀ d, d ∈ librariesPathsList libraries ↔
      d ∈ libraries.map parsedLibrary.absoluteDirectory) := by
  refine ⟨envLookup_envSet env0 _ _, ?_, List.nodup_dedup _, fun d => List.mem_dedup⟩
  unfold flattenEnv setLdLibraryPath envSet buildLdLibraryPath
  simp

/-- The argcomplete probe argument vector from the claim: the anchor argument
is the script path and `-m` only follows it. -/
def completionProbeArgs : List String :=
  ["bento", "exec", "srcA", "binX", "/path/to/cache/x/y", "-m",
   "argcomplete._check_console_script", "/path/to/script"]

/-- C8 counterexample: with `-m` *after* the anchor path, `main` does not exit;
it proceeds to `exec` with `bentoDir = /path/to/cache` and passes the `-m`
through as an argument, so resolution (disk reads, possibly network) begins,
contradicting the claimed immediate exit-1 with no disk or network
activity. -/
theorem main_completion_probe_counterexample :
    mainModel completionProbeArgs =
      .runExec "srcA" "binX" "/path/to/cache"
        ["-m", "argcomplete._check_console_script", "/path/to/script"] := by decide

/-- C8 amended: the immediate exit-1 guard fires when the anchor argument
itself is `-m` (the actual argcomplete probe shape,
`exec srcA binX -m ...`), before any resolution work. -/
theorem main_completion_probe_exit :
    mainModel ["bento", "exec", "srcA", "binX", "-m",
      "argcomplete._check_console_script", "/path/to/script"]
      = .completionProbeExit := by decide

/-- C9: the claim says the progress callback's denominator is never zero.  The
code violates it: a response with header `Content-Length: 0` is non-empty, so
`fetch` installs a `progressReader` with `contentLengthInBytes = 0`
(src/utils/networking.go lines 27-41 check only non-emptiness, not
positivity), and the first `Read` (io.Copy performs one even on an empty
body) invokes the callback, whose division `(0*100)/0` panics in Go
(modeled by `none`). -/
theorem contentLengthZero_division_by_zero :
    fetchReaderSetup "0" =
      .progressWrapper { contentLengthInBytes := 0, contentReadInBytes := 0 } ∧
    (progressReaderRead { contentLengthInBytes := 0, contentReadInBytes := 0 } 0).2
      = none := by decide

/-- C10: `loadSource` is atomic on the memoization map: every error return
leaves the map exactly as it was, and a successful return either comes from
the memo (map unchanged) or extends the map with precisely the entry for the
requested name. -/
theorem loadSource_error_atomicity
    (readSourceManifest : String → Except String unparsedSourceConfig)
    (goarch : String) (shuffle : List String → List String)
    (sourcesDirPath downloadedSourcesDirPath : String)
    (loadedSources : List (String × parsedSourceConfig)) (name : String) :
    (∀ e, (loadSource readSourceManifest goarch shuffle sourcesDirPath
        downloadedSourcesDirPath loadedSources name).1 = .error e →
      (loadSource readSourceManifest goarch shuffle sourcesDirPath
        downloadedSourcesDirPath loadedSources name).2 = loadedSources) ∧
    (∀ conf, (loadSource readSourceManifest goarch shuffle sourcesDirPath
        downloadedSourcesDirPath loadedSources name).1 = .ok conf →
      ((loadSource readSourceManifest goarch shuffle sourcesDirPath
          downloadedSourcesDirPath loadedSources name).2 = loadedSources ∧
        lookupA loadedSources name = some conf) ∨
      (loadSource readSourceManifest goarch shuffle sourcesDirPath
        downloadedSourcesDirPath loadedSources name).2
          = (name, conf) :: loadedSources) := by
  rcases loadSource_cases readSourceManifest goarch shuffle sourcesDirPath
      downloadedSourcesDirPath loadedSources name with
    ⟨e0, heq⟩ | ⟨conf0, hl, heq⟩ | ⟨conf0, heq⟩
  · refine ⟨fun e _ => by rw [heq], fun conf hc => ?_⟩
    rw [heq] at hc
    simp at hc
  · refine ⟨fun e hc => ?_, fun conf hc => ?_⟩
    · rw [heq] at hc
      simp at hc
    · rw [heq] at hc
      simp at hc
      subst hc
      exact Or.inl ⟨by rw [heq], hl⟩
  · refine ⟨fun e hc => ?_, fun conf hc => ?_⟩
    · rw [heq] at hc
      simp at hc
    · rw [heq] at hc
      simp at hc
      subst hc
      exact Or.inr (by rw [heq])

/-- C10 witness: with an empty sources directory the load fails and the map
(empty here) is returned unchanged. -/
theorem loadSource_error_atomicity_witness :
    (loadSource emptySourceFS "amd64" id "sources" "dl" [] "x").2 = [] :=
  (loadSource_error_atomicity emptySourceFS "amd64" id "sources" "dl" [] "x").1
    (.sourceLoadingError "x" "no such file or directory") rfl

/-- C4 witness: the amended equivalence instantiated in the concrete world
where URL `A` fails, `B` mismatches, `C` verifies and extraction succeeds. -/
theorem download_mirror_fallback_witness :
    ((download extractOkWorld abcOptions).getLast? = some "done" ↔
      ∃ bC, extractOkWorld.fetchF "C" = .ok bC ∧
        extractOkWorld.sha256F bC = abcOptions.Checksum ∧
        extractOkWorld.extractF bC abcOptions.Compression abcOptions.Destination
          abcOptions.RootPath = none) :=
  download_mirror_fallback extractOkWorld abcOptions "A" "B" "C"
    "connection refused" [] rfl rfl rfl rfl (by decide)

end Bento
